import Mathlib

/-!
Shallow embedding of the TakeTwoLabs data-entry dashboard workflow core:
the Tend/Release service workflow engine (TendDialog) and the entry
lifecycle manager (App-level handlers), translated from the TypeScript
source.  Strings model the TS string-valued form fields ("" is the unset
value, matching JS falsiness of the empty string); numbers are rationals;
timestamps are naturals.
-/

namespace TakeTwo

/-- The per-entry service-detail state held by `TendDialog`
(`useState` initial value: all strings empty, all booleans false). -/
structure ServiceDetails where
  isShoeClean : String
  serviceType : String
  needsReglue : Bool
  needsPaint : Bool
  qcPassed : Bool
  basicCleaning : String
  receivedBy : String
  deriving Repr, DecidableEq

/-- `checkIfCanRelease` from TendDialog: decides whether the release
sub-flow may be opened.  JS truthiness on the string fields is
`≠ ""`; `serviceType && qcPassed` evaluates to a falsy value when
`serviceType` is empty and to `qcPassed` otherwise. -/
def checkIfCanRelease (sd : ServiceDetails) : Bool :=
  if sd.receivedBy = "" then false
  else if sd.isShoeClean = "" then false
  else if sd.isShoeClean = "yes" then sd.qcPassed
  else if sd.isShoeClean = "no" then
    if sd.basicCleaning = "yes" then sd.qcPassed
    else if sd.basicCleaning = "no" then decide (sd.serviceType ≠ "") && sd.qcPassed
    else false
  else false

/-- The release sub-form state (`releaseData` in TendDialog):
after-photos, the additional-billing text field, the delivery option and
the delivery address text field. -/
structure ReleaseData where
  afterPhotos : List String
  additionalBilling : String
  deliveryOption : String
  deliveryAddress : String
  deriving Repr, DecidableEq

/-- Model of JS `String.prototype.trim` (an external builtin): drop
whitespace from both ends.  Defined structurally over the character
list so that concrete instances evaluate inside the kernel. -/
def jsTrim (s : String) : String :=
  ⟨((s.data.dropWhile Char.isWhitespace).reverse.dropWhile
      Char.isWhitespace).reverse⟩

/-- One JS decimal digit. -/
def digitVal (c : Char) : Option ℚ :=
  if c.isDigit then some ((c.toNat - 48 : ℕ) : ℚ) else none

def parseDigits : List Char → ℚ → Option ℚ
  | [], acc => some acc
  | c :: cs, acc =>
    match digitVal c with
    | some d => parseDigits cs (acc * 10 + d)
    | none => none

def parseFracDigits : List Char → ℚ → ℚ → ℚ
  | [], acc, _ => acc
  | c :: cs, acc, scale =>
    match digitVal c with
    | some d => parseFracDigits cs (acc + d * scale) (scale / 10)
    | none => acc

/-- Model of the JS expression `parseFloat(s) || 0`: parse an optional
sign and a decimal number from the start of the (trimmed) string; any
failure (NaN) and an actual zero both yield 0.  `parseFloat` itself is a
JS builtin external to the repository, so this is a model of its use
here, which only ever feeds a user-typed amount field. -/
def parseFloatOrZero (s : String) : ℚ :=
  let cs := (jsTrim s).data
  let (sign, rest) :=
    match cs with
    | '-' :: cs => ((-1 : ℚ), cs)
    | '+' :: cs => ((1 : ℚ), cs)
    | cs => ((1 : ℚ), cs)
  let intPart := rest.takeWhile Char.isDigit
  let afterInt := rest.drop intPart.length
  let frac :=
    match afterInt with
    | '.' :: fs => parseFracDigits (fs.takeWhile Char.isDigit) 0 (1 / 10)
    | _ => 0
  if intPart = [] ∧ frac = 0 then 0
  else
    match parseDigits intPart 0 with
    | some n => sign * (n + frac)
    | none => 0

/-- The `updates` object built by `handleFinalSubmit` on success:
merged service details, the after-photos, the delivery option, the new
status, and the two conditionally-present fields (absent = `none`,
mirroring a key simply not present on the JS partial object). -/
structure ReleaseUpdates where
  serviceDetails : ServiceDetails
  afterPhotos : List String
  deliveryOption : String
  status : String
  additionalBilling : Option ℚ
  deliveryAddress : Option String
  deriving Repr, DecidableEq

/-- `handleFinalSubmit` from TendDialog: validates the release form and
either reports the first failing validation (as the toast message the
source shows) or produces the `updates` object passed to
`onUpdateEntry`. -/
def handleFinalSubmit (sd : ServiceDetails) (rd : ReleaseData) :
    Except String ReleaseUpdates :=
  if rd.afterPhotos.length = 0 then
    .error "Please upload at least one after photo"
  else if rd.deliveryOption = "" then
    .error "Please select a delivery option"
  else if rd.deliveryOption = "delivery" ∧ (jsTrim rd.deliveryAddress) = "" then
    .error "Delivery address is required when delivery option is selected"
  else
    .ok
      { serviceDetails := sd
        afterPhotos := rd.afterPhotos
        deliveryOption := rd.deliveryOption
        status := "substantial-completion"
        additionalBilling :=
          if (jsTrim rd.additionalBilling) ≠ "" then
            some (parseFloatOrZero rd.additionalBilling)
          else none
        deliveryAddress :=
          if rd.deliveryOption = "delivery" then some rd.deliveryAddress
          else none }

/-- Entry lifecycle status (`Entry['status']` in App.tsx). -/
inductive Status where
  | pending
  | substantialCompletion
  | completed
  deriving Repr, DecidableEq

/-- Position of a status in the forward workflow order
pending → substantial-completion → completed. -/
def Status.rank : Status → ℕ
  | .pending => 0
  | .substantialCompletion => 1
  | .completed => 2

/-- The central `Entry` record (type `Entry` in App.tsx).  Optional TS
fields are `Option`; timestamps are naturals; the UI-only `waiverPdf`
File handle (always `null` after mapping from the server) is omitted. -/
structure Entry where
  id : String
  customerName : String
  customerPhone : String
  customerEmail : String
  deliveryAddress : String
  itemDescription : String
  shoeCondition : String
  shoeService : Option String
  waiverSigned : Bool
  waiverUrl : Option String
  beforePhotos : List String
  assignedTo : Option String
  needsReglue : Option Bool
  needsPaint : Option Bool
  status : Status
  serviceDetails : Option ServiceDetails
  afterPhotos : List String
  billing : Option ℚ
  additionalBilling : Option ℚ
  deliveryOption : Option String
  markedAs : Option String
  createdAt : ℕ
  updatedAt : ℕ
  deriving Repr, DecidableEq

/-- A `Partial<Entry>` patch as passed to `updateEntry`: a field that is
`none` is absent from the JS object and leaves the entry's field alone
under spread merge.  `createdAt` and `updatedAt` may appear in a caller's
patch but are destructured away by `updateEntry` before merging. -/
structure Patch where
  customerName : Option String := none
  customerPhone : Option String := none
  customerEmail : Option String := none
  deliveryAddress : Option String := none
  itemDescription : Option String := none
  shoeCondition : Option String := none
  shoeService : Option (Option String) := none
  beforePhotos : Option (List String) := none
  assignedTo : Option (Option String) := none
  status : Option Status := none
  serviceDetails : Option (Option ServiceDetails) := none
  afterPhotos : Option (List String) := none
  billing : Option (Option ℚ) := none
  additionalBilling : Option (Option ℚ) := none
  deliveryOption : Option (Option String) := none
  markedAs : Option (Option String) := none
  createdAt : Option ℕ := none
  updatedAt : Option ℕ := none
  deriving Repr, DecidableEq

/-- The empty patch `{}`. -/
def emptyPatch : Patch := {}

/-- `updateEntry` from App.tsx, restricted to its effect on the targeted
entry: `const {waiverPdf, createdAt, updatedAt, ...rest} = updates` drops
the timestamps from the patch, the local list is updated with
`{...entry, ...rest, updatedAt: new Date(updated.updatedAt)}`, where
`updated.updatedAt` is the server-assigned mutation time `t`. -/
def updateEntry (e : Entry) (p : Patch) (t : ℕ) : Entry :=
  { e with
    customerName := p.customerName.getD e.customerName
    customerPhone := p.customerPhone.getD e.customerPhone
    customerEmail := p.customerEmail.getD e.customerEmail
    deliveryAddress := p.deliveryAddress.getD e.deliveryAddress
    itemDescription := p.itemDescription.getD e.itemDescription
    shoeCondition := p.shoeCondition.getD e.shoeCondition
    shoeService := p.shoeService.getD e.shoeService
    beforePhotos := p.beforePhotos.getD e.beforePhotos
    assignedTo := p.assignedTo.getD e.assignedTo
    status := p.status.getD e.status
    serviceDetails := p.serviceDetails.getD e.serviceDetails
    afterPhotos := p.afterPhotos.getD e.afterPhotos
    billing := p.billing.getD e.billing
    additionalBilling := p.additionalBilling.getD e.additionalBilling
    deliveryOption := p.deliveryOption.getD e.deliveryOption
    markedAs := p.markedAs.getD e.markedAs
    updatedAt := t }

/-- The patch `onUpdateEntry` receives from TendDialog's successful
`handleFinalSubmit`: the `updates` object translated to `Partial<Entry>`
form (keys absent from `updates` are absent from the patch). -/
def ReleaseUpdates.toPatch (u : ReleaseUpdates) : Patch :=
  { serviceDetails := some (some u.serviceDetails)
    afterPhotos := some u.afterPhotos
    deliveryOption := some (some u.deliveryOption)
    status := some .substantialCompletion
    additionalBilling := u.additionalBilling.map (fun q => some q)
    deliveryAddress := u.deliveryAddress }

/-- The edit patches built by the views (Pending `handleEdit`,
SubstantialCompletion / Completed `handleViewDetails`): every editable
field may appear, but the `editData` objects never carry a `status`,
`createdAt` or `updatedAt` key. -/
def Patch.isEdit (p : Patch) : Prop :=
  p.status = none ∧ p.createdAt = none ∧ p.updatedAt = none

instance (p : Patch) : Decidable p.isEdit := by
  unfold Patch.isEdit; infer_instance

/-- A UI mutation on one active entry, as reachable in the source:
saving an edit dialog, releasing via the Tend dialog (only offered in
the Pending view, and only once `checkIfCanRelease` passes and
`handleFinalSubmit` validates), and Mark-as-Done (only offered in the
Substantial Completion view). -/
inductive Op where
  | edit (p : Patch)
  | release (sd : ServiceDetails) (rd : ReleaseData)
  | markDone
  deriving Repr

/-- One reachable mutation step on an entry, at server time `t`:
`none` when the operation is not reachable for this entry (wrong view
for its status, gate not passed, or release validation failed).
- edit: `onUpdateEntry(id, editData)` with a status-free patch;
- release: TendDialog is opened from the Pending view (entries filtered
  to `status === 'pending'`), `handleRelease` requires
  `checkIfCanRelease`, then `handleFinalSubmit` must validate;
- markDone: `onUpdateEntry(entryId, {status: 'completed'})` from the
  Substantial Completion view (filtered to that status). -/
def applyOp (e : Entry) (op : Op) (t : ℕ) : Option Entry :=
  match op with
  | .edit p => if p.isEdit then some (updateEntry e p t) else none
  | .release sd rd =>
    if e.status = .pending ∧ checkIfCanRelease sd then
      match handleFinalSubmit sd rd with
      | .ok u => some (updateEntry e u.toPatch t)
      | .error _ => none
    else none
  | .markDone =>
    if e.status = .substantialCompletion then
      some (updateEntry e { status := some .completed } t)
    else none

/-- A sequence of reachable mutations applied to an entry. -/
def applyOps (e : Entry) : List (Op × ℕ) → Option Entry
  | [] => some e
  | (op, t) :: rest =>
    match applyOp e op t with
    | some e2 => applyOps e2 rest
    | none => none

/-! # Intake form (`NewEntry.tsx`) -/

/-- The intake form state relevant to `validateForm`: the text fields,
the service-selection checkboxes (`selectedServices`, keyed map of
booleans), the derived-but-stateful `totalAmount`, and the before
photos. -/
structure IntakeForm where
  customerPhone : String
  deliveryAddress : String
  selectedServices : List (String × Bool)
  totalAmount : ℚ
  beforePhotos : List String
  deriving Repr

/-- `validateForm` from NewEntry.tsx: pushes one message per violated
intake rule, in source order, and returns them all. -/
def validateForm (f : IntakeForm) : List String :=
  (if (jsTrim f.customerPhone) = "" then ["Phone number is required"] else []) ++
  (if (jsTrim f.deliveryAddress) = "" then ["Delivery address is required"] else []) ++
  (if ¬ f.selectedServices.any (fun kv => kv.2) then
    ["At least one service must be selected"] else []) ++
  (if f.totalAmount ≤ 0 then ["Total amount must be greater than 0"] else []) ++
  (if f.beforePhotos.length = 0 then
    ["Please upload at least one before photo"] else [])

/-- `handleSubmit` from NewEntry.tsx, up to its submit/abort decision:
reports the validation errors (each as a toast) and aborts when any rule
fails, otherwise hands the draft to `onAddEntry`. -/
def handleSubmit (f : IntakeForm) : Except (List String) Unit :=
  if validateForm f ≠ [] then .error (validateForm f) else .ok ()

/-! # Billing totals (Completed / Deleted views, Analytics, Report) -/

/-- Per-entry total shown in the Completed view:
`₱{((entry.billing || 0) + (entry.additionalBilling || 0))}`. -/
def completedDisplayTotal (e : Entry) : ℚ :=
  e.billing.getD 0 + e.additionalBilling.getD 0

/-- Per-entry amount shown in the Deleted view:
`₱{(entry.billing || 0) + (entry.additionalBilling || 0)}`. -/
def deletedDisplayAmount (e : Entry) : ℚ :=
  e.billing.getD 0 + e.additionalBilling.getD 0

/-- JS truthiness of `entry.billing`: present and non-zero. -/
def billingTruthy (e : Entry) : Bool :=
  match e.billing with
  | some b => b ≠ 0
  | none => false

/-- `totalRevenue` from Analytics.tsx:
`entries.filter(e => e.billing).reduce((sum, e) => sum + (e.billing || 0), 0)`. -/
def analyticsTotalRevenue (es : List Entry) : ℚ :=
  (es.filter billingTruthy).foldl (fun sum e => sum + e.billing.getD 0) 0

/-- `totalRevenue` from Report.tsx (same shape as the Analytics one,
over the filtered entries). -/
def reportTotalRevenue (es : List Entry) : ℚ :=
  (es.filter billingTruthy).foldl (fun sum e => sum + e.billing.getD 0) 0

/-- The spec's billing-aggregation formula, stated from the spec's own
words for comparison with the source's aggregations:
`totalAmount(entry) = (entry.billing ?? 0) + (entry.additionalBilling ?? 0)`. -/
def totalAmountSpec (e : Entry) : ℚ :=
  e.billing.getD 0 + e.additionalBilling.getD 0

/-! # Soft delete and restore (App.tsx + persistence backend) -/

/-- App-level client state: the active list (`entries`) and the deleted
list (`deletedEntries`). -/
structure LocalState where
  entries : List Entry
  deletedEntries : List Entry
  deriving Repr, DecidableEq

/-- `handleDeleteEntry` from App.tsx.  The snapshot is captured and the
entry removed from `entries` inside the `setEntries` updater, which runs
before `await deleteEntry(id)`; `backendOk` records whether that call
resolves or throws.  Only on success is the snapshot prepended to
`deletedEntries`; the `catch` block merely reports the failure. -/
def handleDeleteEntry (s : LocalState) (id : String) (backendOk : Bool) :
    LocalState :=
  let deletedSnapshot := s.entries.find? (fun e => decide (e.id = id))
  let s1 : LocalState :=
    { s with entries := s.entries.filter (fun e => decide (e.id ≠ id)) }
  if backendOk then
    match deletedSnapshot with
    | some e => { s1 with deletedEntries := e :: s1.deletedEntries }
    | none => s1
  else s1

/-- The persistence backend's two soft-delete collections. -/
structure ServerState where
  active : List Entry
  deleted : List Entry
  deriving Repr, DecidableEq

/-- Modelled from the spec: the backend `softDelete(id)` operation.  The
server code and the `./api` transport module are not under src/; per the
spec, soft delete "removes entry from the active set, appends to the
deleted set, preserving all fields and its status at time of
deletion". -/
def serverSoftDelete (srv : ServerState) (id : String) : ServerState :=
  match srv.active.find? (fun e => decide (e.id = id)) with
  | some e =>
    { active := srv.active.filter (fun x => decide (x.id ≠ id))
      deleted := srv.deleted ++ [e] }
  | none => srv

/-- Modelled from the spec: the backend `restore(entryId)` operation,
which "moves entry back from deleted set to active set, preserving
original status unchanged". -/
def serverRestore (srv : ServerState) (id : String) : ServerState :=
  match srv.deleted.find? (fun e => decide (e.id = id)) with
  | some e =>
    { active := srv.active ++ [e]
      deleted := srv.deleted.filter (fun x => decide (x.id ≠ id)) }
  | none => srv

/-- `loadAllData` from App.tsx: refetches both lists from the server and
replaces the client lists (`mapEntry` is the identity on the modelled
fields). -/
def loadAllData (srv : ServerState) : LocalState :=
  { entries := srv.active, deletedEntries := srv.deleted }

/-- Combined client + server state. -/
structure SysState where
  client : LocalState
  server : ServerState
  deriving Repr, DecidableEq

/-- The successful soft-delete flow: `handleDeleteEntry` client-side
around a backend `deleteEntry(id)` call that succeeds. -/
def softDeleteFlow (sys : SysState) (id : String) : SysState :=
  { client := handleDeleteEntry sys.client id true
    server := serverSoftDelete sys.server id }

/-- `handleRestoreEntry` from App.tsx:
`await restoreEntry(id); await loadAllData()`. -/
def restoreFlow (sys : SysState) (id : String) : SysState :=
  let srv2 := serverRestore sys.server id
  { client := loadAllData srv2, server := srv2 }

/-! # Claim theorems -/

/-- C1: for every service-detail state in which `receivedBy` is set and
`isShoeClean = "yes"`, `checkIfCanRelease` returns exactly `qcPassed`,
independent of `serviceType`, `basicCleaning`, `needsReglue` and
`needsPaint` (the state is universally quantified, so no other field can
influence the result). -/
theorem checkIfCanRelease_clean_gate_eq_qc (sd : ServiceDetails)
    (hrb : sd.receivedBy ≠ "") (hcl : sd.isShoeClean = "yes") :
    checkIfCanRelease sd = sd.qcPassed := by
  simp [checkIfCanRelease, hrb, hcl]

/-- Concrete state used to witness C1. -/
def sdCleanW : ServiceDetails :=
  { isShoeClean := "yes", serviceType := "", needsReglue := true,
    needsPaint := true, qcPassed := true, basicCleaning := "",
    receivedBy := "taketwo" }

/-- Witness for C1 at a concrete state. -/
theorem checkIfCanRelease_clean_gate_eq_qc_witness :
    sdCleanW.receivedBy ≠ "" ∧ sdCleanW.isShoeClean = "yes" ∧
      checkIfCanRelease sdCleanW = sdCleanW.qcPassed :=
  ⟨by decide, rfl, checkIfCanRelease_clean_gate_eq_qc sdCleanW (by decide) rfl⟩

/-- Concrete counterexample state for C2: dirty shoe, no basic cleaning,
`serviceType` chosen, QC passed, but `receivedBy` unset. -/
def sdNoReceivedBy : ServiceDetails :=
  { isShoeClean := "no", serviceType := "restoration", needsReglue := false,
    needsPaint := false, qcPassed := true, basicCleaning := "no",
    receivedBy := "" }

/-- Counterexample to C2 as stated: in a state with
`isShoeClean = "no"` and `basicCleaning = "no"`, having `serviceType`
set and `qcPassed = true` does not make the gate true — `receivedBy`
unset still forces it false, so the stated biconditional fails. -/
theorem release_gate_no_no_needs_receivedBy_cx :
    sdNoReceivedBy.isShoeClean = "no" ∧ sdNoReceivedBy.basicCleaning = "no" ∧
      sdNoReceivedBy.serviceType ≠ "" ∧ sdNoReceivedBy.qcPassed = true ∧
      checkIfCanRelease sdNoReceivedBy = false := by
  decide

/-- C2 (amended): the gate is false whenever `receivedBy` is unset,
whenever `isShoeClean` is unset, and whenever `isShoeClean = "no"` with
`basicCleaning` unset; and for every state with `receivedBy` set,
`isShoeClean = "no"` and `basicCleaning = "no"`, the gate is true
exactly when `serviceType` is set and `qcPassed` is true, so flipping
either `serviceType` to unset or `qcPassed` to false makes the gate
false. -/
theorem checkIfCanRelease_unset_and_notclean_spec (sd : ServiceDetails) :
    (sd.receivedBy = "" → checkIfCanRelease sd = false) ∧
    (sd.isShoeClean = "" → checkIfCanRelease sd = false) ∧
    (sd.isShoeClean = "no" → sd.basicCleaning = "" →
      checkIfCanRelease sd = false) ∧
    (sd.receivedBy ≠ "" → sd.isShoeClean = "no" → sd.basicCleaning = "no" →
      ((checkIfCanRelease sd = true ↔
          sd.serviceType ≠ "" ∧ sd.qcPassed = true) ∧
        checkIfCanRelease { sd with serviceType := "" } = false ∧
        checkIfCanRelease { sd with qcPassed := false } = false)) := by
  refine ⟨fun h => by simp [checkIfCanRelease, h],
    fun h => by simp [checkIfCanRelease, h],
    fun h1 h2 => by simp [checkIfCanRelease, h1, h2],
    fun hrb h1 h2 => ⟨?_, ?_, ?_⟩⟩
  · simp [checkIfCanRelease, hrb, h1, h2]
  · simp [checkIfCanRelease, hrb, h1, h2]
  · simp [checkIfCanRelease, hrb, h1, h2]

/-- Concrete state used to witness the amended C2. -/
def sdNoNoW : ServiceDetails :=
  { isShoeClean := "no", serviceType := "deep-cleaning", needsReglue := false,
    needsPaint := false, qcPassed := true, basicCleaning := "no",
    receivedBy := "gameville" }

/-- Witness for the amended C2 at a concrete state: the biconditional
branch applied with all hypotheses discharged. -/
theorem checkIfCanRelease_unset_and_notclean_spec_witness :
    checkIfCanRelease sdNoNoW = true ∧
      checkIfCanRelease { sdNoNoW with qcPassed := false } = false :=
  ⟨(((checkIfCanRelease_unset_and_notclean_spec sdNoNoW).2.2.2
      (by decide) rfl rfl).1).mpr ⟨by decide, rfl⟩,
    ((checkIfCanRelease_unset_and_notclean_spec sdNoNoW).2.2.2
      (by decide) rfl rfl).2.2⟩

/-- On success, `handleFinalSubmit` produces exactly the `updates`
object built in the source. -/
theorem handleFinalSubmit_ok_shape (sd : ServiceDetails) (rd : ReleaseData)
    (u : ReleaseUpdates) (h : handleFinalSubmit sd rd = .ok u) :
    u = { serviceDetails := sd
          afterPhotos := rd.afterPhotos
          deliveryOption := rd.deliveryOption
          status := "substantial-completion"
          additionalBilling :=
            if (jsTrim rd.additionalBilling) ≠ "" then
              some (parseFloatOrZero rd.additionalBilling)
            else none
          deliveryAddress :=
            if rd.deliveryOption = "delivery" then some rd.deliveryAddress
            else none } := by
  unfold handleFinalSubmit at h
  split at h
  · cases h
  · split at h
    · cases h
    · split at h
      · cases h
      · exact (Except.ok.inj h).symm

/-- C3: `handleFinalSubmit` fails exactly when the after-photos list is
empty, or the delivery option is unset, or the option is "delivery" with
a blank (after trimming) address; otherwise the emitted update carries
the merged service details, the after-photos, the delivery fields,
`additionalBilling` exactly when a non-blank value was typed, and
status "substantial-completion". -/
theorem handleFinalSubmit_validation_spec (sd : ServiceDetails)
    (rd : ReleaseData) :
    ((∃ msg, handleFinalSubmit sd rd = .error msg) ↔
      (rd.afterPhotos = [] ∨ rd.deliveryOption = "" ∨
        (rd.deliveryOption = "delivery" ∧ (jsTrim rd.deliveryAddress) = ""))) ∧
    (∀ u, handleFinalSubmit sd rd = .ok u →
      u.serviceDetails = sd ∧ u.afterPhotos = rd.afterPhotos ∧
      u.deliveryOption = rd.deliveryOption ∧
      u.status = "substantial-completion" ∧
      (u.additionalBilling ≠ none ↔ (jsTrim rd.additionalBilling) ≠ "") ∧
      u.deliveryAddress =
        (if rd.deliveryOption = "delivery" then some rd.deliveryAddress
         else none)) := by
  constructor
  · by_cases h1 : rd.afterPhotos.length = 0 <;>
      by_cases h2 : rd.deliveryOption = "" <;>
        by_cases h3 : rd.deliveryOption = "delivery" ∧
            (jsTrim rd.deliveryAddress) = "" <;>
          simp [handleFinalSubmit, h1, h2, h3, ← List.length_eq_zero]
  · intro u hu
    have hsh := handleFinalSubmit_ok_shape sd rd u hu
    subst hsh
    refine ⟨rfl, rfl, rfl, rfl, ?_, rfl⟩
    by_cases h4 : (jsTrim rd.additionalBilling) = "" <;> simp [h4]

/-- Service details used in release-form witnesses. -/
def sdReleaseW : ServiceDetails :=
  { isShoeClean := "no", serviceType := "restoration", needsReglue := false,
    needsPaint := true, qcPassed := true, basicCleaning := "no",
    receivedBy := "taketwo" }

/-- Scenario D release form: one after-photo, delivery chosen, blank
address. -/
def rdScenarioD : ReleaseData :=
  { afterPhotos := ["photo-1"], additionalBilling := "",
    deliveryOption := "delivery", deliveryAddress := "" }

/-- A valid pickup release form. -/
def rdPickupW : ReleaseData :=
  { afterPhotos := ["photo-1"], additionalBilling := "150",
    deliveryOption := "pickup", deliveryAddress := "typed but unused" }

/-- The update `rdPickupW` produces. -/
def updPickupW : ReleaseUpdates :=
  { serviceDetails := sdReleaseW
    afterPhotos := ["photo-1"]
    deliveryOption := "pickup"
    status := "substantial-completion"
    additionalBilling := some (parseFloatOrZero "150")
    deliveryAddress := none }

/-- Witness for C3: scenario D fails, and a valid pickup form yields an
update with status "substantial-completion" and a present
`additionalBilling`. -/
theorem handleFinalSubmit_validation_spec_witness :
    (∃ msg, handleFinalSubmit sdReleaseW rdScenarioD = .error msg) ∧
      updPickupW.status = "substantial-completion" ∧
      updPickupW.additionalBilling ≠ none :=
  ⟨((handleFinalSubmit_validation_spec sdReleaseW rdScenarioD).1).mpr
      (Or.inr (Or.inr ⟨rfl, by decide⟩)),
    ((handleFinalSubmit_validation_spec sdReleaseW rdPickupW).2 updPickupW
        rfl).2.2.2.1,
    (((handleFinalSubmit_validation_spec sdReleaseW rdPickupW).2 updPickupW
        rfl).2.2.2.2.1).mpr (by decide)⟩

/-- C9: when the release form is finalized with delivery option
"pickup", the emitted update omits `deliveryAddress` (it is absent from
the patch), so applying the update to any entry leaves the entry's
intake delivery address unchanged, whatever was typed in the form's
address field. -/
theorem pickup_release_keeps_intake_address (sd : ServiceDetails)
    (rd : ReleaseData) (u : ReleaseUpdates) (e : Entry) (t : ℕ)
    (hp : rd.deliveryOption = "pickup")
    (h : handleFinalSubmit sd rd = .ok u) :
    u.deliveryAddress = none ∧
      (updateEntry e u.toPatch t).deliveryAddress = e.deliveryAddress := by
  have hsh := handleFinalSubmit_ok_shape sd rd u h
  subst hsh
  refine ⟨by simp [hp], ?_⟩
  simp [updateEntry, ReleaseUpdates.toPatch, hp]

/-- An entry used as a concrete input in witnesses. -/
def entryW : Entry :=
  { id := "e1", customerName := "Ana", customerPhone := "0917",
    customerEmail := "ana@mail.test", deliveryAddress := "123 Intake St",
    itemDescription := "AJ1", shoeCondition := "dirty",
    shoeService := some "Deep Clean - 499", waiverSigned := true,
    waiverUrl := none, beforePhotos := ["b1"], assignedTo := some "Mia",
    needsReglue := some false, needsPaint := some false,
    status := .pending, serviceDetails := none, afterPhotos := [],
    billing := some 499, additionalBilling := none,
    deliveryOption := some "delivery", markedAs := none,
    createdAt := 10, updatedAt := 10 }

/-- Witness for C9 at concrete inputs: the pickup release leaves the
intake address "123 Intake St" in place. -/
theorem pickup_release_keeps_intake_address_witness :
    (updateEntry entryW updPickupW.toPatch 42).deliveryAddress =
      entryW.deliveryAddress :=
  (pickup_release_keeps_intake_address sdReleaseW rdPickupW updPickupW
      entryW 42 rfl rfl).2

/-- C4: intake submission fails exactly when one of the five intake
rules is violated; every violated rule's message is reported (each
message is present iff its rule fails, so all failures show together);
and with only the phone blank the error list is exactly the
missing-phone message. -/
theorem validateForm_reports_all_violations (f : IntakeForm) :
    ("Phone number is required" ∈ validateForm f ↔
      (jsTrim f.customerPhone) = "") ∧
    ("Delivery address is required" ∈ validateForm f ↔
      (jsTrim f.deliveryAddress) = "") ∧
    ("At least one service must be selected" ∈ validateForm f ↔
      ¬ f.selectedServices.any (fun kv => kv.2)) ∧
    ("Total amount must be greater than 0" ∈ validateForm f ↔
      f.totalAmount ≤ 0) ∧
    ("Please upload at least one before photo" ∈ validateForm f ↔
      f.beforePhotos = []) ∧
    ((∃ errs, handleSubmit f = .error errs) ↔
      ((jsTrim f.customerPhone) = "" ∨ (jsTrim f.deliveryAddress) = "" ∨
        ¬ f.selectedServices.any (fun kv => kv.2) ∨ f.totalAmount ≤ 0 ∨
        f.beforePhotos = [])) ∧
    ((jsTrim f.customerPhone) = "" → (jsTrim f.deliveryAddress) ≠ "" →
      f.selectedServices.any (fun kv => kv.2) → ¬ f.totalAmount ≤ 0 →
      f.beforePhotos ≠ [] →
      validateForm f = ["Phone number is required"]) := by
  by_cases h1 : (jsTrim f.customerPhone) = "" <;>
    by_cases h2 : (jsTrim f.deliveryAddress) = "" <;>
      by_cases h3 : f.selectedServices.any (fun kv => kv.2) = true <;>
        by_cases h4 : f.totalAmount ≤ 0 <;>
          by_cases h5 : f.beforePhotos.length = 0 <;>
            simp only [List.length_eq_zero] at h5 <;>
              simp [validateForm, handleSubmit, h1, h2, h3, h4, h5,
                List.length_eq_zero]

/-- Scenario F intake form: blank phone, everything else valid. -/
def intakeScenarioF : IntakeForm :=
  { customerPhone := "", deliveryAddress := "123 St",
    selectedServices := [("basic-clean", true)], totalAmount := 500,
    beforePhotos := ["b1"] }

/-- Witness for C4: scenario F reports exactly the missing-phone rule. -/
theorem validateForm_reports_all_violations_witness :
    validateForm intakeScenarioF = ["Phone number is required"] :=
  (validateForm_reports_all_violations intakeScenarioF).2.2.2.2.2.2
    rfl (by decide) (by decide) (by norm_num [intakeScenarioF]) (by decide)

/-- Entry used in the C5 counterexample: billed 100 at intake plus 50
additional billing. -/
def entryBilled : Entry :=
  { entryW with
    id := "e2"
    billing := some 100
    additionalBilling := some 50 }

/-- Counterexample to C5 as stated: the Analytics `totalRevenue`
aggregation over a single entry with `billing = 100` and
`additionalBilling = 50` yields 100, not the claimed
`(billing ?? 0) + (additionalBilling ?? 0) = 150` — additional billing
is not included in report/analytics revenue. -/
theorem analytics_revenue_ignores_additional_cx :
    analyticsTotalRevenue [entryBilled] = 100 ∧
      totalAmountSpec entryBilled = 150 ∧
      analyticsTotalRevenue [entryBilled] ≠ totalAmountSpec entryBilled := by
  refine ⟨?_, ?_, ?_⟩
  · simp [analyticsTotalRevenue, billingTruthy, entryBilled, entryW]
  · show (100 : ℚ) + 50 = 150
    norm_num
  · simp [analyticsTotalRevenue, totalAmountSpec, billingTruthy, entryBilled,
      entryW]

/-- C5 (amended): the per-entry totals displayed by the Completed and
Deleted views equal `(billing ?? 0) + (additionalBilling ?? 0)`,
recomputed from the current fields; but the Analytics and Report
`totalRevenue` aggregations (which agree with each other) sum only the
`billing` field over entries whose `billing` is truthy, ignoring
`additionalBilling`. -/
theorem billing_totals_amended (e : Entry) (es : List Entry) :
    completedDisplayTotal e = totalAmountSpec e ∧
    deletedDisplayAmount e = totalAmountSpec e ∧
    reportTotalRevenue es = analyticsTotalRevenue es ∧
    analyticsTotalRevenue es =
      ((es.filter billingTruthy).map (fun x => x.billing.getD 0)).sum := by
  refine ⟨rfl, rfl, rfl, ?_⟩
  unfold analyticsTotalRevenue
  generalize es.filter billingTruthy = l
  suffices h : ∀ (a : ℚ),
      l.foldl (fun sum e => sum + e.billing.getD 0) a =
        a + (l.map (fun x => x.billing.getD 0)).sum by
    simpa using h 0
  induction l with
  | nil => intro a; simp
  | cons x xs ih => intro a; simp [ih, add_assoc]

/-- Helper: `find?` skips a prefix in which it finds nothing. -/
theorem find?_append_of_none {α} (p : α → Bool) {l1 : List α}
    (l2 : List α) (h : l1.find? p = none) :
    (l1 ++ l2).find? p = l2.find? p := by
  simp [List.find?_append, h]

/-- Helper: after filtering out an id, `find?` for that id fails. -/
theorem find?_filter_ne_eid (l : List Entry) (eid : String) :
    (l.filter (fun x => decide (x.id ≠ eid))).find?
      (fun x => decide (x.id = eid)) = none := by
  rw [List.find?_eq_none]
  intro x hx
  have hne := (List.mem_filter.mp hx).2
  simp at hne ⊢
  exact hne

/-- Every reachable mutation factors through `updateEntry` with some
patch at the given server time. -/
theorem applyOp_exists_patch (e : Entry) (op : Op) (t : ℕ) (e2 : Entry)
    (h : applyOp e op t = some e2) : ∃ q : Patch, e2 = updateEntry e q t := by
  cases op with
  | edit q =>
    simp only [applyOp] at h
    split at h
    · exact ⟨q, (Option.some.inj h).symm⟩
    · cases h
  | release sd rd =>
    simp only [applyOp] at h
    split at h
    · cases hh : handleFinalSubmit sd rd with
      | error m => rw [hh] at h; cases h
      | ok u => rw [hh] at h; exact ⟨u.toPatch, (Option.some.inj h).symm⟩
    · cases h
  | markDone =>
    simp only [applyOp] at h
    split at h
    · exact ⟨{ status := some .completed }, (Option.some.inj h).symm⟩
    · cases h

/-- Status effect of each reachable mutation. -/
theorem applyOp_status_cases (e : Entry) (op : Op) (t : ℕ) (e2 : Entry)
    (h : applyOp e op t = some e2) :
    (∃ q, op = Op.edit q ∧ e2.status = e.status) ∨
    (∃ sd rd, op = Op.release sd rd ∧ e.status = .pending ∧
      e2.status = .substantialCompletion) ∨
    (op = Op.markDone ∧ e.status = .substantialCompletion ∧
      e2.status = .completed) := by
  cases op with
  | edit q =>
    left
    refine ⟨q, rfl, ?_⟩
    simp only [applyOp] at h
    split at h
    next hq =>
      rw [← Option.some.inj h]
      simp [updateEntry, hq.1]
    next => cases h
  | release sd rd =>
    right; left
    simp only [applyOp] at h
    split at h
    next hc =>
      cases hh : handleFinalSubmit sd rd with
      | error m => rw [hh] at h; cases h
      | ok u =>
        rw [hh] at h
        refine ⟨sd, rd, rfl, hc.1, ?_⟩
        rw [← Option.some.inj h]
        simp [updateEntry, ReleaseUpdates.toPatch]
    next => cases h
  | markDone =>
    right; right
    simp only [applyOp] at h
    split at h
    next hc =>
      refine ⟨rfl, hc, ?_⟩
      rw [← Option.some.inj h]
      simp [updateEntry]
    next => cases h

/-- A single reachable mutation never lowers the status rank. -/
theorem applyOp_rank_le (e : Entry) (op : Op) (t : ℕ) (e2 : Entry)
    (h : applyOp e op t = some e2) :
    e.status.rank ≤ e2.status.rank := by
  rcases applyOp_status_cases e op t e2 h with ⟨q, _, hs⟩ |
    ⟨sd, rd, _, h1, h2⟩ | ⟨_, h1, h2⟩
  · simp [hs]
  · simp [h1, h2, Status.rank]
  · simp [h1, h2, Status.rank]

/-- C7: an edit with the empty patch changes nothing but `updatedAt`;
`updateEntry` strips timestamps from every patch, so `createdAt` is
immutable and `updatedAt` is set to the server mutation time; and every
reachable mutation (all of which go through `updateEntry`) preserves
`createdAt` and refreshes `updatedAt`. -/
theorem updateEntry_frame_spec (e : Entry) (p : Patch) (t : ℕ) :
    updateEntry e emptyPatch t = { e with updatedAt := t } ∧
    (updateEntry e p t).createdAt = e.createdAt ∧
    (updateEntry e p t).updatedAt = t ∧
    (∀ op e2 t2, applyOp e op t2 = some e2 →
      e2.createdAt = e.createdAt ∧ e2.updatedAt = t2) := by
  refine ⟨by simp [updateEntry, emptyPatch], rfl, rfl, ?_⟩
  intro op e2 t2 h
  obtain ⟨q, rfl⟩ := applyOp_exists_patch e op t2 e2 h
  exact ⟨rfl, rfl⟩

/-- Witness for C7 at a concrete entry and mutation. -/
theorem updateEntry_frame_spec_witness :
    (updateEntry entryW emptyPatch 42).createdAt = entryW.createdAt ∧
      (updateEntry entryW emptyPatch 42).updatedAt = 42 :=
  (updateEntry_frame_spec entryW emptyPatch 42).2.2.2 (Op.edit emptyPatch)
    (updateEntry entryW emptyPatch 42) 42 rfl

/-- C8: along every reachable sequence of mutations the status rank
never decreases; an edit never changes status; release is only possible
from pending and lands in substantial-completion; Mark-as-Done is only
possible from substantial-completion (no further precondition) and
lands in completed. -/
theorem status_moves_forward :
    (∀ e op t e2, applyOp e op t = some e2 →
      e.status.rank ≤ e2.status.rank ∧
      (∀ q, op = Op.edit q → e2.status = e.status) ∧
      (∀ sd rd, op = Op.release sd rd →
        e.status = Status.pending ∧
        e2.status = Status.substantialCompletion) ∧
      (op = Op.markDone →
        e.status = Status.substantialCompletion ∧
        e2.status = Status.completed)) ∧
    (∀ e ops e2, applyOps e ops = some e2 →
      e.status.rank ≤ e2.status.rank) := by
  constructor
  · intro e op t e2 h
    have hc := applyOp_status_cases e op t e2 h
    refine ⟨applyOp_rank_le e op t e2 h, ?_, ?_, ?_⟩
    · intro q hq
      subst hq
      rcases hc with ⟨q2, _, hs⟩ | ⟨sd2, rd2, he, _⟩ | ⟨he, _⟩
      · exact hs
      · exact Op.noConfusion he
      · exact Op.noConfusion he
    · intro sd rd hq
      subst hq
      rcases hc with ⟨q2, he, _⟩ | ⟨sd2, rd2, he, h1, h2⟩ | ⟨he, _⟩
      · exact Op.noConfusion he
      · exact ⟨h1, h2⟩
      · exact Op.noConfusion he
    · intro hq
      subst hq
      rcases hc with ⟨q2, he, _⟩ | ⟨sd2, rd2, he, _⟩ | ⟨_, h1, h2⟩
      · exact Op.noConfusion he
      · exact Op.noConfusion he
      · exact ⟨h1, h2⟩
  · intro e ops
    induction ops generalizing e with
    | nil =>
      intro e2 h
      rw [← Option.some.inj h]
    | cons p rest ih =>
      obtain ⟨op, t⟩ := p
      intro e2 h
      unfold applyOps at h
      cases hh : applyOp e op t with
      | none => rw [hh] at h; cases h
      | some emid =>
        rw [hh] at h
        exact le_trans (applyOp_rank_le e op t emid hh) (ih emid e2 h)

/-- An entry sitting in substantial completion, for the C8 witness. -/
def entrySubW : Entry :=
  { entryW with
    id := "e3"
    status := .substantialCompletion }

/-- Witness for C8: Mark-as-Done on a substantial-completion entry
moves it forward to completed. -/
theorem status_moves_forward_witness :
    entrySubW.status.rank ≤
      (updateEntry entrySubW { status := some Status.completed } 9).status.rank ∧
    (updateEntry entrySubW { status := some Status.completed } 9).status =
      Status.completed :=
  ⟨(status_moves_forward.1 entrySubW Op.markDone 9
      (updateEntry entrySubW { status := some Status.completed } 9) rfl).1,
    ((status_moves_forward.1 entrySubW Op.markDone 9
      (updateEntry entrySubW { status := some Status.completed } 9) rfl).2.2.2
      rfl).2⟩

/-- C6: soft-deleting an active entry and then restoring its id brings
back the very same record — every field equal to the pre-delete entry
(hence in particular its status at deletion time); the restored client
list is the refetched server list.  The persistence backend itself
(`./api` and the server) is not under src/, so its `softDelete`/
`restore` operations are modelled from the spec; the client-side flows
(`handleDeleteEntry`, `handleRestoreEntry`, `loadAllData`) are embedded
from App.tsx.  `hfresh` reflects that ids are unique, so the deleted set
holds no other entry with this id. -/
theorem softDelete_restore_roundtrip (sys : SysState) (eid : String)
    (e : Entry)
    (hfind : sys.server.active.find? (fun x => decide (x.id = eid)) = some e)
    (hfresh : ∀ x ∈ sys.server.deleted, x.id ≠ eid) :
    (restoreFlow (softDeleteFlow sys eid) eid).client.entries.find?
      (fun x => decide (x.id = eid)) = some e := by
  have hpe : e.id = eid := by simpa using List.find?_some hfind
  have hdelnone :
      sys.server.deleted.find? (fun x => decide (x.id = eid)) = none := by
    rw [List.find?_eq_none]
    intro x hx
    simpa using hfresh x hx
  have hsd : serverSoftDelete sys.server eid =
      { active := sys.server.active.filter (fun x => decide (x.id ≠ eid))
        deleted := sys.server.deleted ++ [e] } := by
    unfold serverSoftDelete
    rw [hfind]
  have hfind2 : (sys.server.deleted ++ [e]).find?
      (fun x => decide (x.id = eid)) = some e := by
    rw [find?_append_of_none _ _ hdelnone]
    simp [List.find?_cons, hpe]
  have hfind3 : (sys.server.active.filter
      (fun x => decide (x.id ≠ eid)) ++ [e]).find?
      (fun x => decide (x.id = eid)) = some e := by
    rw [find?_append_of_none _ _
      (find?_filter_ne_eid sys.server.active eid)]
    simp [List.find?_cons, hpe]
  have hsr : serverRestore (serverSoftDelete sys.server eid) eid =
      { active := sys.server.active.filter
          (fun x => decide (x.id ≠ eid)) ++ [e]
        deleted := (sys.server.deleted ++ [e]).filter
          (fun x => decide (x.id ≠ eid)) } := by
    rw [hsd]
    unfold serverRestore
    rw [hfind2]
  show (serverRestore (serverSoftDelete sys.server eid) eid).active.find?
      (fun x => decide (x.id = eid)) = some e
  rw [hsr]
  exact hfind3

/-- Concrete system state for the C6 witness: one pending active entry,
empty deleted sets. -/
def sysW : SysState :=
  { client := { entries := [entryW], deletedEntries := [] }
    server := { active := [entryW], deleted := [] } }

/-- Witness for C6: delete then restore of "e1" hands back `entryW`
itself. -/
theorem softDelete_restore_roundtrip_witness :
    (restoreFlow (softDeleteFlow sysW "e1") "e1").client.entries.find?
      (fun x => decide (x.id = "e1")) = some entryW :=
  softDelete_restore_roundtrip sysW "e1" entryW rfl (by simp [sysW])

/-- C10: `handleDeleteEntry` drops the entry from the active list
before the backend call resolves; when the call fails the deleted list
is untouched and the entry is put back nowhere (the local state has
still changed — soft delete is not atomic on error); when the call
succeeds the snapshot is prepended to the deleted list. -/
theorem handleDeleteEntry_error_not_atomic (s : LocalState) (eid : String)
    (e : Entry)
    (hfind : s.entries.find? (fun x => decide (x.id = eid)) = some e) :
    (handleDeleteEntry s eid false).entries =
      s.entries.filter (fun x => decide (x.id ≠ eid)) ∧
    (handleDeleteEntry s eid false).deletedEntries = s.deletedEntries ∧
    (∀ x ∈ (handleDeleteEntry s eid false).entries, x.id ≠ eid) ∧
    (handleDeleteEntry s eid false).entries ≠ s.entries ∧
    (handleDeleteEntry s eid true).entries =
      s.entries.filter (fun x => decide (x.id ≠ eid)) ∧
    (handleDeleteEntry s eid true).deletedEntries = e :: s.deletedEntries := by
  have hmem : e ∈ s.entries := List.mem_of_find?_eq_some hfind
  have hid : e.id = eid := by
    have := List.find?_some hfind
    simpa using this
  have hfalse : handleDeleteEntry s eid false =
      { s with entries := s.entries.filter (fun x => decide (x.id ≠ eid)) } := by
    unfold handleDeleteEntry
    simp
  have htrue : handleDeleteEntry s eid true =
      { entries := s.entries.filter (fun x => decide (x.id ≠ eid))
        deletedEntries := e :: s.deletedEntries } := by
    unfold handleDeleteEntry
    rw [hfind]
    rfl
  refine ⟨by rw [hfalse], by rw [hfalse], ?_, ?_, by rw [htrue], by rw [htrue]⟩
  · intro x hx
    rw [hfalse] at hx
    have := (List.mem_filter.mp hx).2
    simpa using this
  · rw [hfalse]
    show ¬ s.entries.filter (fun x => decide (x.id ≠ eid)) = s.entries
    intro hcontra
    have : e ∈ s.entries.filter (fun x => decide (x.id ≠ eid)) := by
      rw [hcontra]
      exact hmem
    have := (List.mem_filter.mp this).2
    simp [hid] at this

/-- Client state for the C10 witness. -/
def localW : LocalState := { entries := [entryW], deletedEntries := [] }

/-- Witness for C10: with the backend call failing, "e1" is gone from
the active list and absent from the deleted list; on success it is
prepended to the deleted list. -/
theorem handleDeleteEntry_error_not_atomic_witness :
    (handleDeleteEntry localW "e1" false).deletedEntries = [] ∧
      (handleDeleteEntry localW "e1" false).entries ≠ localW.entries ∧
      (handleDeleteEntry localW "e1" true).deletedEntries = [entryW] :=
  ⟨(handleDeleteEntry_error_not_atomic localW "e1" entryW rfl).2.1,
    (handleDeleteEntry_error_not_atomic localW "e1" entryW rfl).2.2.2.1,
    (handleDeleteEntry_error_not_atomic localW "e1" entryW rfl).2.2.2.2.2⟩

end TakeTwo
